import Mathlib

/-! Shallow embeddings of `main.go` from rosmo/long-cloud-run.

The program is an HTTP-triggered process supervisor: `handler` validates the
request, commits an HTTP 200 chunked response, builds a `Command` via
`NewCommand` and calls `Command.Run`, which starts the subprocess and enters a
`select` loop over three event sources (subprocess output lines, backoff
deadline ticks, and the process-completion signal from `cmd.Wait()`).

The embedding models the event loop as a function over an explicit list of
events (the order in which the Go `select` fires), time instants as
nanoseconds (`Nat`, matching the integer nanoseconds of Go durations), and
the external failure points (pipe acquisition, `cmd.Start`, `Process.Kill`,
body read, JSON unmarshal) as oracle parameters, since they are environment
interactions outside the program text.
-/

deriving instance DecidableEq for Except

namespace LongCloudRun

/-- Go `time.Duration` values are integer nanoseconds; one second. -/
def nsPerSecond : Nat := 1000000000

/-- One minute in nanoseconds. -/
def nsPerMinute : Nat := 60 * nsPerSecond

/-- Go `d.Truncate(time.Second)` for a nonnegative duration: round toward
zero to a multiple of one second. -/
def truncSecond (d : Nat) : Nat := d / nsPerSecond * nsPerSecond

/-- Go `d.Truncate(time.Minute)` for a nonnegative duration: round toward
zero to a multiple of one minute. -/
def truncMinute (d : Nat) : Nat := d / nsPerMinute * nsPerMinute

/-- Go `time.Duration.String()` restricted to the durations this program
renders: every duration it formats has first been truncated to a whole
second (or whole minute), so only the whole-second branch of the Go logic
is reachable (`0` renders as "0s"; otherwise seconds, then minutes when
≥ 1 minute, then hours when ≥ 1 hour). -/
def goDurString (d : Nat) : String :=
  let s := d / nsPerSecond
  if d = 0 then "0s"
  else if s < 60 then toString s ++ "s"
  else if s < 3600 then toString (s / 60) ++ "m" ++ toString (s % 60) ++ "s"
  else toString (s / 3600) ++ "h" ++ toString (s % 3600 / 60) ++ "m" ++
    toString (s % 60) ++ "s"

/-- Hard-coded `b.MaxElapsedTime = 60 * time.Minute` in `Run`. -/
def MAX_ELAPSED_TIME : Nat := 60 * nsPerMinute

/-- The `Command` struct.  The `Request`, `Response`, `Flusher` and logger
fields are handles to the HTTP exchange and the process log; their effect is
modelled by the `response` line list in `RunState` (lines written through
`writeProgress`, which writes to the response sink and flushes) and by the
error value returned by the run (which `handler` feeds to `log.Fatal`). -/
structure Command where
  Name : String
  Args : List String
  ShowOutput : Bool
  CanFail : Bool
  AllowedExitCodes : List Int
deriving Repr, DecidableEq

/-- Constructor `NewCommand`: the only one used; fixes surfacing on, failures
not tolerated, and `{0}` as the allowed exit codes. -/
def NewCommand (name : String) (args : List String) : Command :=
  { Name := name
    Args := args
    ShowOutput := true
    CanFail := false
    AllowedExitCodes := [0] }

/-- The error returned by `cmd.Wait()`, as the classification code inspects
it: either an `*exec.ExitError` whose `Sys()` is a `syscall.WaitStatus`
carrying an exit code, an `*exec.ExitError` without one (falls through to
the generic wrap), or any other error.  `msg` is the rendered error used
by the `%w` wrap in "Command failed in ...". -/
inductive WaitError where
  | exitStatus (code : Int)
  | exitNoStatus (msg : String)
  | other (msg : String)
deriving Repr, DecidableEq

/-- One firing of the `select` in the `Run` event loop:
an output line from either stream scanner, a tick of the backoff poll timer
(`deadline = true` models `tick.Year() == 1`, the zero ticker value sent
when `MaxElapsedTime` is exceeded), or the completion signal from the
`cmd.Wait()` goroutine.  `now` is `time.Now()` at that iteration, in
nanoseconds. -/
inductive Event where
  | output (line : String)
  | tick (deadline : Bool) (now : Nat)
  | done (err : Option WaitError) (now : Nat)
deriving Repr, DecidableEq

/-- The environment of one run: the recorded `startTime` and the result of
`cmd.Process.Kill()` should the timeout path invoke it (`none` = kill
succeeds, `some e` = kill returns error `e`). -/
structure RunEnv where
  startTime : Nat
  killError : Option String
deriving Repr, DecidableEq

/-- Outcomes of the environment interactions performed before the event
loop: `cmd.StdoutPipe()`, `cmd.StderrPipe()` and `cmd.Start()`
(`none` = success, `some e` = the rendered error). -/
structure SetupEnv where
  stdoutPipeErr : Option String
  stderrPipeErr : Option String
  startErr : Option String
deriving Repr, DecidableEq

/-- The mutable state of the event loop: the `processTerminated` guard,
whether `pollTimer` is still running, `lastIntervalTime`, the lines written
so far through `writeProgress` (to the response sink, flushed), and a ghost
counter of `cmd.Process.Kill()` invocations. -/
structure RunState where
  processTerminated : Bool
  tickerRunning : Bool
  lastIntervalTime : Nat
  response : List String
  killCount : Nat
deriving Repr, DecidableEq

/-- The progress line of the timeout branch:
`"Command timed out in %s: %s"` with `b.MaxElapsedTime.Truncate(time.Minute)`
rendered. -/
def timeoutLine (c : Command) : String :=
  "Command timed out in " ++ goDurString (truncMinute MAX_ELAPSED_TIME) ++
    ": " ++ c.Name

/-- The liveness line: `"[Still waiting for command to complete: %s --- %s]"`
with the elapsed time truncated to whole seconds. -/
def stillWaitingLine (c : Command) (elapsed : Nat) : String :=
  "[Still waiting for command to complete: " ++ c.Name ++ " --- " ++
    goDurString (truncSecond elapsed) ++ "]"

/-- The success terminal line: `"Command completed in %s: %s"`. -/
def completedLine (c : Command) (dur : String) : String :=
  "Command completed in " ++ dur ++ ": " ++ c.Name

/-- Classification of the completion event (`case err := <-done`), after
`commandDuration` has been rendered: mirrors the `if err != nil` ladder. -/
def classifyDone (c : Command) (dur : String) :
    Option WaitError → Except String Unit
  | none => Except.ok ()
  | some we =>
    if c.CanFail then Except.ok ()
    else
      match we with
      | WaitError.exitStatus code =>
        if c.AllowedExitCodes.contains code then Except.ok ()
        else Except.error ("Command exited with status code in " ++ dur ++
          ": " ++ toString code)
      | WaitError.exitNoStatus m =>
        Except.error ("Command failed in " ++ dur ++ ": " ++ m)
      | WaitError.other m =>
        Except.error ("Command failed in " ++ dur ++ ": " ++ m)

/-- Response lines written by the completion branch: only the `err == nil`
arm calls `writeProgress`; every error arm returns without writing to the
response sink (the error goes to the caller of `Run`). -/
def doneLines (c : Command) (dur : String) : Option WaitError → List String
  | none => [completedLine c dur]
  | some _ => []

/-- The `for { select { ... } }` loop of `Run`, driven by the list of events
in the order `select` fires them.  Returns `none` when the event list is
exhausted without a completion event (the Go loop would still be blocked),
otherwise the value `Run` returns together with the final loop state.
The two `time.Now()` calls inside one tick branch are modelled as the same
instant `now`. -/
def Command.runLoop (c : Command) (env : RunEnv) :
    RunState → List Event → Option (Except String Unit × RunState)
  | _, [] => none
  | st, Event.output line :: rest =>
    if c.ShowOutput then
      Command.runLoop c env { st with response := st.response ++ [line] } rest
    else
      Command.runLoop c env st rest
  | st, Event.tick deadline now :: rest =>
    if deadline then
      if st.processTerminated then
        Command.runLoop c env st rest
      else
        match env.killError with
        | some e =>
          some (Except.error ("Failed to terminate command: " ++ e),
            { st with tickerRunning := false, killCount := st.killCount + 1 })
        | none =>
          Command.runLoop c env
            { st with
                tickerRunning := false
                killCount := st.killCount + 1
                processTerminated := true
                response := st.response ++ [timeoutLine c] } rest
    else
      if now - st.lastIntervalTime > nsPerSecond then
        Command.runLoop c env
          { st with
              response := st.response ++
                [stillWaitingLine c (now - env.startTime)]
              lastIntervalTime := now } rest
      else
        Command.runLoop c env st rest
  | st, Event.done err now :: _ =>
    let dur := goDurString (truncSecond (now - env.startTime))
    some (classifyDone c dur err,
      { st with
          tickerRunning := false
          response := st.response ++ doneLines c dur err })

/-- The observable result of one `Run` call: the returned error (or nil),
the lines written to the response sink, whether `cmd.Start()` was reached,
and the final values of the kill counter and the `processTerminated` flag. -/
structure RunResult where
  result : Except String Unit
  response : List String
  startCalled : Bool
  killCount : Nat
  processTerminated : Bool
deriving Repr, DecidableEq

/-- Method `Command.Run`: writes "Running command: ..." first, acquires two
pipes (each failure returns a setup error before `cmd.Start()` is called),
starts the process, then runs the event loop. -/
def Command.Run (c : Command) (setup : SetupEnv) (env : RunEnv)
    (events : List Event) : Option RunResult :=
  let resp0 := ["Running command: " ++ c.Name]
  match setup.stdoutPipeErr with
  | some e =>
    some ⟨Except.error ("error getting stdout pipe: " ++ e), resp0,
      false, 0, false⟩
  | none =>
    match setup.stderrPipeErr with
    | some e =>
      some ⟨Except.error ("error getting stderr pipe: " ++ e), resp0,
        false, 0, false⟩
    | none =>
      match setup.startErr with
      | some e =>
        some ⟨Except.error ("error starting command: " ++ e), resp0,
          true, 0, false⟩
      | none =>
        match Command.runLoop c env
            ⟨false, true, env.startTime, resp0, 0⟩ events with
        | none => none
        | some (r, st) =>
          some ⟨r, st.response, true, st.killCount, st.processTerminated⟩

/-- The Pub/Sub push envelope the handler unmarshals the body into. -/
structure PubSubMessage where
  data : List Nat
  id : String
  subscription : String
deriving Repr, DecidableEq

/-- The observable result of one `handler` invocation: the HTTP status
written (`400` on rejection, `200` committed before the run), the progress
lines written to the response sink, the message passed to `log.Fatal` /
`log.Fatalf` if any (which aborts the host process abnormally), and whether
`command.Run()` was invoked. -/
structure HandlerResult where
  status : Option Nat
  response : List String
  fatalLog : Option String
  ran : Bool
  fatalExit : Bool
deriving Repr, DecidableEq

/-- The command the handler constructs: program name from `os.Args[1]`,
arguments from `os.Args[2:]` (empty when `len(os.Args) <= 2`). -/
def handlerCommand (osArgs : List String) : Command :=
  NewCommand (osArgs.getD 1 "") (osArgs.drop 2)

/-- Function `handler`: checks `os.Args`, the flusher cast, reads the body
(`bodyReadErr` is the `ioutil.ReadAll` outcome), unmarshals a non-empty body
(`parsed` is the `json.Unmarshal` outcome), commits the 200 chunked
response, then constructs the command and runs it, passing any run error to
`log.Fatal`.  Returns `none` when the event loop never receives a
completion event. -/
def handler (osArgs : List String) (flusherOk : Bool)
    (bodyReadErr : Option String) (body : String)
    (parsed : Option PubSubMessage) (setup : SetupEnv) (env : RunEnv)
    (events : List Event) : Option HandlerResult :=
  if osArgs.length = 1 then
    some ⟨none, [], some "No command to run set!", false, true⟩
  else if ¬flusherOk then
    some ⟨some 400, [], none, false, false⟩
  else
    match bodyReadErr with
    | some _ => some ⟨some 400, [], none, false, false⟩
    | none =>
      if body.length > 0 ∧ parsed = none then
        some ⟨some 400, [], none, false, false⟩
      else
        match Command.Run (handlerCommand osArgs) setup env events with
        | none => none
        | some r =>
          match r.result with
          | Except.ok _ => some ⟨some 200, r.response, none, true, false⟩
          | Except.error m => some ⟨some 200, r.response, some m, true, true⟩

/-! ### Supporting definitions for reasoning about the event loop -/

/-- Whether an event is the completion event. -/
def Event.isDone : Event → Bool
  | Event.done _ _ => true
  | _ => false

/-- Whether an event is a deadline tick (`tick.Year() == 1`). -/
def Event.isDeadline : Event → Bool
  | Event.tick true _ => true
  | _ => false

/-- One non-completion iteration of the event loop as a state transformer,
assuming `cmd.Process.Kill()` succeeds (no early return).  Agrees with the
corresponding branches of `Command.runLoop` (`runLoop_cons`). -/
def stepND (c : Command) (env : RunEnv) (st : RunState) : Event → RunState
  | Event.output line =>
    if c.ShowOutput then { st with response := st.response ++ [line] } else st
  | Event.tick deadline now =>
    if deadline then
      if st.processTerminated then st
      else
        { st with
            tickerRunning := false
            killCount := st.killCount + 1
            processTerminated := true
            response := st.response ++ [timeoutLine c] }
    else
      if now - st.lastIntervalTime > nsPerSecond then
        { st with
            response := st.response ++
              [stillWaitingLine c (now - env.startTime)]
            lastIntervalTime := now }
      else st
  | Event.done _ _ => st

/-- Run the loop state through a list of non-completion events. -/
def drain (c : Command) (env : RunEnv) (st : RunState)
    (evs : List Event) : RunState :=
  evs.foldl (stepND c env) st

theorem drain_nil (c : Command) (env : RunEnv) (st : RunState) :
    drain c env st [] = st := rfl

theorem drain_cons (c : Command) (env : RunEnv) (st : RunState) (e : Event)
    (evs : List Event) :
    drain c env st (e :: evs) = drain c env (stepND c env st e) evs := rfl

/-- When the kill cannot fail, each non-completion branch of the loop is
exactly a `stepND` transition followed by the loop on the remaining
events. -/
theorem runLoop_cons (c : Command) (env : RunEnv) (st : RunState) (e : Event)
    (rest : List Event) (hk : env.killError = none)
    (he : e.isDone = false) :
    Command.runLoop c env st (e :: rest) =
      Command.runLoop c env (stepND c env st e) rest := by
  cases e with
  | output line =>
    by_cases h : c.ShowOutput <;> simp [Command.runLoop, stepND, h]
  | tick deadline now =>
    cases deadline with
    | false =>
      by_cases h : now - st.lastIntervalTime > nsPerSecond <;>
        simp [Command.runLoop, stepND, h]
    | true =>
      by_cases h : st.processTerminated <;>
        simp [Command.runLoop, stepND, h, hk]
  | done err now => simp [Event.isDone] at he

/-- The loop on a list of non-completion events followed by a completion
event returns the classification of the completion event, from the state
obtained by draining the prefix; everything after the completion event is
ignored. -/
theorem runLoop_append_done (c : Command) (env : RunEnv)
    (hk : env.killError = none) (evs : List Event) :
    ∀ (st : RunState), evs.all (fun e => !e.isDone) = true →
      ∀ (err : Option WaitError) (now : Nat) (rest : List Event),
        Command.runLoop c env st (evs ++ Event.done err now :: rest) =
          some
            (classifyDone c (goDurString (truncSecond (now - env.startTime)))
              err,
            { drain c env st evs with
                tickerRunning := false
                response := (drain c env st evs).response ++
                  doneLines c
                    (goDurString (truncSecond (now - env.startTime))) err }) := by
  induction evs with
  | nil =>
    intro st _ err now rest
    rfl
  | cons e evs ih =>
    intro st h err now rest
    simp only [List.all_cons, Bool.and_eq_true, Bool.not_eq_true'] at h
    rw [List.cons_append, runLoop_cons c env st e _ hk h.1, drain_cons]
    exact ih (stepND c env st e) (by simpa using h.2) err now rest

/-- A single step never removes response lines. -/
theorem mem_stepND_response (c : Command) (env : RunEnv) (st : RunState)
    (e : Event) (x : String) (hx : x ∈ st.response) :
    x ∈ (stepND c env st e).response := by
  cases e with
  | output line =>
    by_cases h : c.ShowOutput <;> simp [stepND, h, hx]
  | tick deadline now =>
    cases deadline with
    | false =>
      by_cases h : now - st.lastIntervalTime > nsPerSecond <;>
        simp [stepND, h, hx]
    | true =>
      by_cases h : st.processTerminated <;> simp [stepND, h, hx]
  | done err now => simpa [stepND] using hx

/-- Draining never removes response lines. -/
theorem mem_drain_response (c : Command) (env : RunEnv) (evs : List Event) :
    ∀ (st : RunState) (x : String), x ∈ st.response →
      x ∈ (drain c env st evs).response := by
  induction evs with
  | nil => intro st x hx; simpa [drain_nil] using hx
  | cons e evs ih =>
    intro st x hx
    rw [drain_cons]
    exact ih _ x (mem_stepND_response c env st e x hx)

/-- One step flips `processTerminated` exactly on a deadline tick. -/
theorem stepND_processTerminated (c : Command) (env : RunEnv)
    (st : RunState) (e : Event) :
    (stepND c env st e).processTerminated =
      (st.processTerminated || e.isDeadline) := by
  cases e with
  | output line =>
    by_cases h : c.ShowOutput <;> simp [stepND, h, Event.isDeadline]
  | tick deadline now =>
    cases deadline with
    | false =>
      by_cases h : now - st.lastIntervalTime > nsPerSecond <;>
        simp [stepND, h, Event.isDeadline]
    | true =>
      by_cases h : st.processTerminated <;>
        simp [stepND, h, Event.isDeadline]
  | done err now => simp [stepND, Event.isDeadline]

/-- Draining marks the run terminated exactly when a deadline tick
occurred (or it already was). -/
theorem drain_processTerminated (c : Command) (env : RunEnv)
    (evs : List Event) :
    ∀ (st : RunState),
      (drain c env st evs).processTerminated =
        (st.processTerminated || evs.any Event.isDeadline) := by
  induction evs with
  | nil => intro st; simp [drain_nil]
  | cons e evs ih =>
    intro st
    rw [drain_cons, ih, stepND_processTerminated]
    simp [Bool.or_assoc]

/-- The kill counter grows by exactly one when a deadline tick occurs with
the process not yet terminated, and never again afterwards. -/
theorem drain_killCount (c : Command) (env : RunEnv) (evs : List Event) :
    ∀ (st : RunState),
      (drain c env st evs).killCount =
        st.killCount +
          (if st.processTerminated = false ∧ evs.any Event.isDeadline = true
            then 1 else 0) := by
  induction evs with
  | nil => intro st; simp [drain_nil]
  | cons e evs ih =>
    intro st
    rw [drain_cons, ih]
    cases e with
    | output line =>
      by_cases h : c.ShowOutput <;>
        simp [stepND, h, Event.isDeadline]
    | tick deadline now =>
      cases deadline with
      | false =>
        by_cases h : now - st.lastIntervalTime > nsPerSecond <;>
          simp [stepND, h, Event.isDeadline]
      | true =>
        by_cases h : st.processTerminated <;>
          simp [stepND, h, Event.isDeadline]
    | done err now => simp [stepND, Event.isDeadline]

/-- If a deadline tick occurs while the process is not yet terminated, the
timeout progress line is in the drained response. -/
theorem drain_timeoutLine (c : Command) (env : RunEnv) (evs : List Event) :
    ∀ (st : RunState), st.processTerminated = false →
      evs.any Event.isDeadline = true →
      timeoutLine c ∈ (drain c env st evs).response := by
  induction evs with
  | nil => intro st _ hdl; simp at hdl
  | cons e evs ih =>
    intro st hpt hdl
    rw [drain_cons]
    cases e with
    | output line =>
      simp only [List.any_cons, Event.isDeadline, Bool.false_or] at hdl
      by_cases h : c.ShowOutput <;> simp only [stepND, h, if_pos, if_neg] <;>
        exact ih _ (by simp [hpt]) hdl
    | tick deadline now =>
      cases deadline with
      | false =>
        simp only [List.any_cons, Event.isDeadline, Bool.false_or] at hdl
        by_cases h : now - st.lastIntervalTime > nsPerSecond <;>
          [skip; skip] <;> simp only [stepND, h, if_pos, if_neg] <;>
          exact ih _ (by simp [hpt]) hdl
      | true =>
        apply mem_drain_response
        simp [stepND, hpt]
    | done err now =>
      simp only [List.any_cons, Event.isDeadline, Bool.false_or] at hdl
      exact ih _ (by simp [stepND, hpt]) hdl

/-- The loop state as `Run` enters the event loop: nothing terminated,
ticker running, `lastIntervalTime` at the start instant, and the
"Running command" line already written. -/
def initState (c : Command) (env : RunEnv) : RunState :=
  ⟨false, true, env.startTime, ["Running command: " ++ c.Name], 0⟩

/-- Evaluating `Run` with clean setup on non-completion events followed by
a completion event: the full observable result. -/
theorem Run_clean (c : Command) (setup : SetupEnv) (env : RunEnv)
    (evs rest : List Event) (err : Option WaitError) (now : Nat)
    (h1 : setup.stdoutPipeErr = none) (h2 : setup.stderrPipeErr = none)
    (h3 : setup.startErr = none) (hk : env.killError = none)
    (hnd : evs.all (fun e => !e.isDone) = true) :
    Command.Run c setup env (evs ++ Event.done err now :: rest) =
      some
        ⟨classifyDone c (goDurString (truncSecond (now - env.startTime))) err,
          (drain c env (initState c env) evs).response ++
            doneLines c (goDurString (truncSecond (now - env.startTime))) err,
          true,
          (drain c env (initState c env) evs).killCount,
          (drain c env (initState c env) evs).processTerminated⟩ := by
  simp only [Command.Run, h1, h2, h3]
  rw [runLoop_append_done c env hk evs
    ⟨false, true, env.startTime, ["Running command: " ++ c.Name], 0⟩
    hnd err now rest]
  rfl

/-- The first character of a string; two strings with different first
characters are different, whatever follows (used to separate setup-error
messages from runtime-error messages). -/
def firstChar (s : String) : Option Char := s.data.head?

theorem ne_of_firstChar {a b : String} (h : firstChar a ≠ firstChar b) :
    a ≠ b :=
  fun hab => h (congrArg firstChar hab)

/-! ### Claim theorems -/

/-- **C3**: for any command whose process exits with a code outside the
configured allowed-exit-code set (and failure tolerance disabled), `Run`
returns a `Failed(exitCode)` error whose message contains that exact exit
code (it is the final segment of the message, after the elapsed duration
truncated to whole seconds). -/
theorem c3_disallowed_exit_code_failed (c : Command) (setup : SetupEnv)
    (env : RunEnv) (evs : List Event) (code : Int) (now : Nat)
    (r : RunResult)
    (h1 : setup.stdoutPipeErr = none) (h2 : setup.stderrPipeErr = none)
    (h3 : setup.startErr = none) (hk : env.killError = none)
    (hnd : evs.all (fun e => !e.isDone) = true)
    (hcf : c.CanFail = false)
    (hcode : c.AllowedExitCodes.contains code = false)
    (h : Command.Run c setup env
        (evs ++ [Event.done (some (WaitError.exitStatus code)) now]) =
      some r) :
    r.result = Except.error ("Command exited with status code in " ++
      goDurString (truncSecond (now - env.startTime)) ++ ": " ++
      toString code) := by
  rw [Run_clean c setup env evs [] _ now h1 h2 h3 hk hnd] at h
  cases h
  simp [classifyDone, hcf, hcode]
  simpa using hcode

/-- Witness for C3: `["false"]` exits 1 with allowed codes `[0]`; `Run`
returns the error naming exit code 1. -/
theorem c3_witness :
    (NewCommand "false" []).CanFail = false ∧
    (NewCommand "false" []).AllowedExitCodes.contains 1 = false ∧
    RunResult.result
        ⟨Except.error "Command exited with status code in 0s: 1",
          ["Running command: false"], true, 0, false⟩ =
      Except.error ("Command exited with status code in " ++
        goDurString (truncSecond (0 - 0)) ++ ": " ++ toString (1 : Int)) :=
  ⟨rfl, rfl,
    c3_disallowed_exit_code_failed (NewCommand "false" []) ⟨none, none, none⟩
      ⟨0, none⟩ [] 1 0
      ⟨Except.error "Command exited with status code in 0s: 1",
        ["Running command: false"], true, 0, false⟩
      rfl rfl rfl rfl rfl rfl rfl rfl⟩

/-- **C4**: for any command whose process exits with a code contained in
the configured allowed-exit-code set, `Run` returns success (`nil` error),
never a `Failed` outcome. -/
theorem c4_allowed_exit_code_success (c : Command) (setup : SetupEnv)
    (env : RunEnv) (evs : List Event) (code : Int) (now : Nat)
    (r : RunResult)
    (h1 : setup.stdoutPipeErr = none) (h2 : setup.stderrPipeErr = none)
    (h3 : setup.startErr = none) (hk : env.killError = none)
    (hnd : evs.all (fun e => !e.isDone) = true)
    (hcode : c.AllowedExitCodes.contains code = true)
    (h : Command.Run c setup env
        (evs ++ [Event.done (some (WaitError.exitStatus code)) now]) =
      some r) :
    r.result = Except.ok () := by
  rw [Run_clean c setup env evs [] _ now h1 h2 h3 hk hnd] at h
  cases h
  simp [classifyDone, hcode]
  intro _
  simpa using hcode

/-- Witness for C4: a command with allowed exit codes `[0, 3]` whose
process exits 3 is reported as success. -/
theorem c4_witness :
    ({ Name := "job", Args := [], ShowOutput := true, CanFail := false,
        AllowedExitCodes := [0, 3] } : Command).AllowedExitCodes.contains 3 =
      true ∧
    RunResult.result ⟨Except.ok (), ["Running command: job"], true, 0,
        false⟩ =
      Except.ok () :=
  ⟨rfl,
    c4_allowed_exit_code_success
      { Name := "job", Args := [], ShowOutput := true, CanFail := false,
        AllowedExitCodes := [0, 3] }
      ⟨none, none, none⟩ ⟨0, none⟩ [] 3 0
      ⟨Except.ok (), ["Running command: job"], true, 0, false⟩
      rfl rfl rfl rfl rfl rfl rfl⟩

/-- **C5**: if the command specification is failure-tolerant
(`CanFail = true`), any completion error — any exit code, in or out of the
allowed set, or any other wait error — yields success (`nil` error from
`Run`). -/
theorem c5_can_fail_swallows_errors (c : Command) (setup : SetupEnv)
    (env : RunEnv) (evs : List Event) (we : WaitError) (now : Nat)
    (r : RunResult)
    (h1 : setup.stdoutPipeErr = none) (h2 : setup.stderrPipeErr = none)
    (h3 : setup.startErr = none) (hk : env.killError = none)
    (hnd : evs.all (fun e => !e.isDone) = true)
    (hcf : c.CanFail = true)
    (h : Command.Run c setup env (evs ++ [Event.done (some we) now]) =
      some r) :
    r.result = Except.ok () := by
  rw [Run_clean c setup env evs [] _ now h1 h2 h3 hk hnd] at h
  cases h
  simp [classifyDone, hcf]

/-- Witness for C5: a failure-tolerant command whose process exits 7
(not in the allowed set `[0]`) is still reported as success. -/
theorem c5_witness :
    ({ Name := "job", Args := [], ShowOutput := true, CanFail := true,
        AllowedExitCodes := [0] } : Command).CanFail = true ∧
    RunResult.result ⟨Except.ok (), ["Running command: job"], true, 0,
        false⟩ =
      Except.ok () :=
  ⟨rfl,
    c5_can_fail_swallows_errors
      { Name := "job", Args := [], ShowOutput := true, CanFail := true,
        AllowedExitCodes := [0] }
      ⟨none, none, none⟩ ⟨0, none⟩ [] (WaitError.exitStatus 7) 0
      ⟨Except.ok (), ["Running command: job"], true, 0, false⟩
      rfl rfl rfl rfl rfl rfl rfl⟩

/-- **C6**: for any command whose process exits 0 (the completion event
carries no error), `Run` returns success and the last progress line written
is "Command completed in <elapsed>: <name>" with the elapsed duration
truncated to whole seconds. -/
theorem c6_exit_zero_completed (c : Command) (setup : SetupEnv)
    (env : RunEnv) (evs : List Event) (now : Nat) (r : RunResult)
    (h1 : setup.stdoutPipeErr = none) (h2 : setup.stderrPipeErr = none)
    (h3 : setup.startErr = none) (hk : env.killError = none)
    (hnd : evs.all (fun e => !e.isDone) = true)
    (h : Command.Run c setup env (evs ++ [Event.done none now]) = some r) :
    r.result = Except.ok () ∧
    r.response.getLast? =
      some (completedLine c (goDurString (truncSecond (now - env.startTime))))
      := by
  rw [Run_clean c setup env evs [] _ now h1 h2 h3 hk hnd] at h
  cases h
  exact ⟨rfl, by simp [doneLines]⟩

/-- Witness for C6: `echo` exits 0 after 1.5 seconds of wall time; the run
succeeds and the last line is "Command completed in 1s: echo". -/
theorem c6_witness :
    RunResult.result
        ⟨Except.ok (), ["Running command: echo",
          "Command completed in 1s: echo"], true, 0, false⟩ =
      Except.ok () ∧
    (RunResult.response
        ⟨Except.ok (), ["Running command: echo",
          "Command completed in 1s: echo"], true, 0, false⟩).getLast? =
      some (completedLine (NewCommand "echo" ["hello"])
        (goDurString (truncSecond (1500000000 - 0)))) :=
  c6_exit_zero_completed (NewCommand "echo" ["hello"]) ⟨none, none, none⟩
    ⟨0, none⟩ [] 1500000000
    ⟨Except.ok (), ["Running command: echo",
      "Command completed in 1s: echo"], true, 0, false⟩
    rfl rfl rfl rfl rfl rfl

/-- **C1**: when the maximum elapsed time is exceeded (a deadline tick
fires, the kill succeeding), the event loop kills the subprocess exactly
once — the `processTerminated` guard prevents any second kill on later
deadline ticks — the run is marked timed out, and the timeout progress line
names the configured maximum duration (`b.MaxElapsedTime`) truncated to
whole minutes. -/
theorem c1_timeout_kills_exactly_once (c : Command) (setup : SetupEnv)
    (env : RunEnv) (evs : List Event) (err : Option WaitError) (now : Nat)
    (r : RunResult)
    (h1 : setup.stdoutPipeErr = none) (h2 : setup.stderrPipeErr = none)
    (h3 : setup.startErr = none) (hk : env.killError = none)
    (hnd : evs.all (fun e => !e.isDone) = true)
    (hdl : evs.any Event.isDeadline = true)
    (h : Command.Run c setup env (evs ++ [Event.done err now]) = some r) :
    r.killCount = 1 ∧ r.processTerminated = true ∧
    timeoutLine c ∈ r.response ∧
    timeoutLine c = "Command timed out in " ++
      goDurString (truncMinute MAX_ELAPSED_TIME) ++ ": " ++ c.Name := by
  rw [Run_clean c setup env evs [] _ now h1 h2 h3 hk hnd] at h
  cases h
  refine ⟨?_, ?_, ?_, rfl⟩
  · show (drain c env (initState c env) evs).killCount = 1
    rw [drain_killCount]
    simp [initState, hdl]
  · show (drain c env (initState c env) evs).processTerminated = true
    rw [drain_processTerminated]
    simp [initState, hdl]
  · show timeoutLine c ∈
      (drain c env (initState c env) evs).response ++
        doneLines c (goDurString (truncSecond (now - env.startTime))) err
    exact List.mem_append_left _
      (drain_timeoutLine c env evs (initState c env) rfl hdl)

/-- Witness for C1: two deadline ticks fire before the completion event
of the killed process arrives (exit status -1); the kill happens once, the run
is marked timed out, and the timeout line reads
"Command timed out in 1h0m0s: sleep". -/
theorem c1_witness :
    RunResult.killCount
        ⟨Except.error "Command exited with status code in 3s: -1",
          ["Running command: sleep", "Command timed out in 1h0m0s: sleep"],
          true, 1, true⟩ = 1 ∧
    RunResult.processTerminated
        ⟨Except.error "Command exited with status code in 3s: -1",
          ["Running command: sleep", "Command timed out in 1h0m0s: sleep"],
          true, 1, true⟩ = true ∧
    timeoutLine (NewCommand "sleep" []) ∈
      RunResult.response
        ⟨Except.error "Command exited with status code in 3s: -1",
          ["Running command: sleep", "Command timed out in 1h0m0s: sleep"],
          true, 1, true⟩ ∧
    timeoutLine (NewCommand "sleep" []) = "Command timed out in " ++
      goDurString (truncMinute MAX_ELAPSED_TIME) ++ ": " ++
      (NewCommand "sleep" []).Name :=
  c1_timeout_kills_exactly_once (NewCommand "sleep" []) ⟨none, none, none⟩
    ⟨0, none⟩
    [Event.tick true nsPerSecond, Event.tick true (2 * nsPerSecond)]
    (some (WaitError.exitStatus (-1))) (3 * nsPerSecond)
    ⟨Except.error "Command exited with status code in 3s: -1",
      ["Running command: sleep", "Command timed out in 1h0m0s: sleep"],
      true, 1, true⟩
    rfl rfl rfl rfl rfl rfl (by decide)

/-- **C7**: if acquiring the stdout or stderr stream handle fails, `Run`
returns a setup error immediately: the subprocess is never started
(`cmd.Start` is not reached), the only line written is the pre-start
"Running command" line (no partial output), and the setup-error message is
textually distinct from every runtime-error message. -/
theorem c7_pipe_error_no_start (c : Command) (setup : SetupEnv)
    (env : RunEnv) (events : List Event) (e s : String) (r : RunResult)
    (hpipe : setup.stdoutPipeErr = some e ∨
      (setup.stdoutPipeErr = none ∧ setup.stderrPipeErr = some e))
    (h : Command.Run c setup env events = some r) :
    r.startCalled = false ∧
    r.response = ["Running command: " ++ c.Name] ∧
    (r.result = Except.error ("error getting stdout pipe: " ++ e) ∨
      r.result = Except.error ("error getting stderr pipe: " ++ e)) ∧
    r.result ≠ Except.error ("Failed to terminate command: " ++ s) ∧
    r.result ≠ Except.error ("Command exited with status code in " ++ s) ∧
    r.result ≠ Except.error ("Command failed in " ++ s) := by
  rcases hpipe with ha | ⟨ha, hb⟩
  · simp only [Command.Run, ha] at h
    cases h
    refine ⟨rfl, rfl, Or.inl rfl, ?_, ?_, ?_⟩ <;>
      · simp only [ne_eq, Except.error.injEq]
        exact ne_of_firstChar (by simp [firstChar, String.data_append])
  · simp only [Command.Run, ha, hb] at h
    cases h
    refine ⟨rfl, rfl, Or.inr rfl, ?_, ?_, ?_⟩ <;>
      · simp only [ne_eq, Except.error.injEq]
        exact ne_of_firstChar (by simp [firstChar, String.data_append])

/-- Witness for C7: the stdout pipe fails with "broken pipe"; the run
fails before start with the setup error, distinct from the runtime errors
built from the suffix "0s: 1". -/
theorem c7_witness :
    RunResult.startCalled
        ⟨Except.error "error getting stdout pipe: broken pipe",
          ["Running command: echo"], false, 0, false⟩ = false ∧
    RunResult.response
        ⟨Except.error "error getting stdout pipe: broken pipe",
          ["Running command: echo"], false, 0, false⟩ =
      ["Running command: " ++ (NewCommand "echo" []).Name] ∧
    (RunResult.result
        ⟨Except.error "error getting stdout pipe: broken pipe",
          ["Running command: echo"], false, 0, false⟩ =
        Except.error ("error getting stdout pipe: " ++ "broken pipe") ∨
      RunResult.result
        ⟨Except.error "error getting stdout pipe: broken pipe",
          ["Running command: echo"], false, 0, false⟩ =
        Except.error ("error getting stderr pipe: " ++ "broken pipe")) ∧
    RunResult.result
        ⟨Except.error "error getting stdout pipe: broken pipe",
          ["Running command: echo"], false, 0, false⟩ ≠
      Except.error ("Failed to terminate command: " ++ "0s: 1") ∧
    RunResult.result
        ⟨Except.error "error getting stdout pipe: broken pipe",
          ["Running command: echo"], false, 0, false⟩ ≠
      Except.error ("Command exited with status code in " ++ "0s: 1") ∧
    RunResult.result
        ⟨Except.error "error getting stdout pipe: broken pipe",
          ["Running command: echo"], false, 0, false⟩ ≠
      Except.error ("Command failed in " ++ "0s: 1") :=
  c7_pipe_error_no_start (NewCommand "echo" [])
    ⟨some "broken pipe", none, none⟩ ⟨0, none⟩ [] "broken pipe" "0s: 1"
    ⟨Except.error "error getting stdout pipe: broken pipe",
      ["Running command: echo"], false, 0, false⟩
    (Or.inl rfl) rfl

/-- **C8 (counterexample)**: it is not true that the terminal
"completed/failed/timed out" line is always the last line written to the
caller.  Concretely: the run times out (the timeout line is written on the
deadline tick), then a buffered output line of the killed process is still
surfaced after it, and the terminal classification (a `Failed` error) adds
no line at all — the last response line is the late output line. -/
theorem c8_counterexample :
    Command.Run (NewCommand "sleep" []) ⟨none, none, none⟩ ⟨0, none⟩
        [Event.tick true nsPerSecond, Event.output "late output",
          Event.done (some (WaitError.exitStatus (-1))) (2 * nsPerSecond)] =
      some ⟨Except.error "Command exited with status code in 2s: -1",
        ["Running command: sleep", "Command timed out in 1h0m0s: sleep",
          "late output"], true, 1, true⟩ := rfl

/-- **C8 (amended)**: the success terminal line ("Command completed ...")
is written only on the process-completion event and is then the last line
written: the loop returns immediately on that event, so any events queued
after it are ignored and nothing further is written to the response sink.
(For error outcomes no terminal line is written to the sink at all, and the
timed-out line is written on a deadline tick, after which surfaced output
lines may still follow.) -/
theorem c8_completion_line_is_last (c : Command) (env : RunEnv)
    (st : RunState) (now : Nat) (rest : List Event) :
    Command.runLoop c env st (Event.done none now :: rest) =
      Command.runLoop c env st [Event.done none now] ∧
    Command.runLoop c env st (Event.done none now :: rest) =
      some (Except.ok (),
        { st with
            tickerRunning := false
            response := st.response ++
              [completedLine c
                (goDurString (truncSecond (now - env.startTime)))] }) ∧
    (st.response ++
        [completedLine c
          (goDurString (truncSecond (now - env.startTime)))]).getLast? =
      some (completedLine c
        (goDurString (truncSecond (now - env.startTime)))) :=
  ⟨rfl, rfl, by simp⟩

/-- **C2 (counterexample)**: a run that ends in an error does not surface
the error as a final progress line on the response sink.  Concretely: the
configured command exits 1; the response sink receives only the
"Running command" line, while the error text goes to `log.Fatal` (the host
log) and the host aborts. -/
theorem c2_counterexample :
    handler ["server", "false"] true none "" none ⟨none, none, none⟩
        ⟨0, none⟩ [Event.done (some (WaitError.exitStatus 1)) 0] =
      some ⟨some 200, ["Running command: false"],
        some "Command exited with status code in 0s: 1", true, true⟩ := rfl

/-- **C2 (amended)**: for every run that ends in an error, the error is
surfaced as a fatal host-log line (`log.Fatal`), aborting the host process
abnormally; no error line is written to the response sink (the error arms
of the completion handling append nothing to it), and no structured error
code crosses the response boundary — the HTTP status stays at the 200
committed before the run, so abnormal host termination is the only
machine-readable failure signal. -/
theorem c2_error_to_fatal_log (osArgs : List String) (flusherOk : Bool)
    (body : String) (parsed : Option PubSubMessage) (setup : SetupEnv)
    (env : RunEnv) (events : List Event) (hr : HandlerResult) (m : String)
    (r : RunResult) (c2 : Command) (env2 : RunEnv) (st st2 : RunState)
    (we : WaitError) (now : Nat) (rest : List Event)
    (res : Except String Unit)
    (h : handler osArgs flusherOk none body parsed setup env events =
      some hr)
    (hran : hr.ran = true) (hm : hr.fatalLog = some m)
    (hrun : Command.Run (handlerCommand osArgs) setup env events = some r)
    (h2 : Command.runLoop c2 env2 st (Event.done (some we) now :: rest) =
      some (res, st2)) :
    hr.fatalExit = true ∧ hr.status = some 200 ∧
    r.result = Except.error m ∧ hr.response = r.response ∧
    st2.response = st.response := by
  have hloop : st2.response = st.response := by
    simp only [Command.runLoop, doneLines, Option.some.injEq,
      Prod.mk.injEq, List.append_nil] at h2
    obtain ⟨-, hst⟩ := h2
    rw [← hst]
  unfold handler at h
  split at h
  · cases h; simp at hran
  · split at h
    · cases h; simp at hran
    · split at h
      · cases h; simp at hran
      · split at h
        · cases h; simp at hran
        · rw [hrun] at h
          cases hres : r.result with
          | ok u =>
            simp [hres] at h
            cases h
            simp at hm
          | error m2 =>
            simp [hres] at h
            cases h
            simp only [HandlerResult.fatalLog, Option.some.injEq] at hm
            subst hm
            exact ⟨rfl, rfl, rfl, rfl, hloop⟩

/-- Witness for C2 (amended): the concrete failing run of
`c2_counterexample`, pushed through the amended theorem. -/
theorem c2_amended_witness :
    HandlerResult.fatalExit
        ⟨some 200, ["Running command: false"],
          some "Command exited with status code in 0s: 1", true, true⟩ =
      true ∧
    HandlerResult.status
        ⟨some 200, ["Running command: false"],
          some "Command exited with status code in 0s: 1", true, true⟩ =
      some 200 ∧
    RunResult.result
        ⟨Except.error "Command exited with status code in 0s: 1",
          ["Running command: false"], true, 0, false⟩ =
      Except.error "Command exited with status code in 0s: 1" ∧
    HandlerResult.response
        ⟨some 200, ["Running command: false"],
          some "Command exited with status code in 0s: 1", true, true⟩ =
      RunResult.response
        ⟨Except.error "Command exited with status code in 0s: 1",
          ["Running command: false"], true, 0, false⟩ ∧
    RunState.response ⟨false, false, 0, ["previous line"], 0⟩ =
      RunState.response ⟨false, true, 0, ["previous line"], 0⟩ :=
  c2_error_to_fatal_log ["server", "false"] true "" none ⟨none, none, none⟩
    ⟨0, none⟩ [Event.done (some (WaitError.exitStatus 1)) 0]
    ⟨some 200, ["Running command: false"],
      some "Command exited with status code in 0s: 1", true, true⟩
    "Command exited with status code in 0s: 1"
    ⟨Except.error "Command exited with status code in 0s: 1",
      ["Running command: false"], true, 0, false⟩
    (NewCommand "x" []) ⟨0, none⟩ ⟨false, true, 0, ["previous line"], 0⟩
    ⟨false, false, 0, ["previous line"], 0⟩ (WaitError.other "boom") 0 []
    (Except.error "Command failed in 0s: boom") rfl rfl rfl rfl rfl

/-- **C9**: every command built by `NewCommand` has `ShowOutput = true`,
`CanFail = false` and `AllowedExitCodes = [0]`, and the command the HTTP
handler actually runs is exactly `NewCommand` applied to `os.Args[1]` and
`os.Args[2:]` — no field is overridden. -/
theorem c9_command_defaults (name : String) (args : List String)
    (osArgs : List String) :
    (NewCommand name args).ShowOutput = true ∧
    (NewCommand name args).CanFail = false ∧
    (NewCommand name args).AllowedExitCodes = [0] ∧
    handlerCommand osArgs = NewCommand (osArgs.getD 1 "") (osArgs.drop 2) ∧
    (handlerCommand osArgs).ShowOutput = true ∧
    (handlerCommand osArgs).CanFail = false ∧
    (handlerCommand osArgs).AllowedExitCodes = [0] :=
  ⟨rfl, rfl, rfl, rfl, rfl, rfl, rfl⟩

/-- A non-empty string has positive length. -/
theorem length_pos_of_ne_empty {s : String} (h : s ≠ "") : 0 < s.length := by
  cases s with
  | mk data =>
    cases data with
    | nil => exact absurd (by decide) h
    | cons a l => simp [String.length]

/-- **C10**: a non-empty request body that fails to parse as JSON makes the
handler answer 400 Bad Request without constructing or running the command;
an empty body is accepted and the run proceeds (the handler commits 200 and
invokes the command). -/
theorem c10_body_validation (osArgs : List String) (flusherOk : Bool)
    (body : String) (parsed : Option PubSubMessage) (setup : SetupEnv)
    (env : RunEnv) (events : List Event)
    (hargs : osArgs.length ≠ 1) (hfl : flusherOk = true) :
    (body ≠ "" → parsed = none →
      handler osArgs flusherOk none body parsed setup env events =
        some ⟨some 400, [], none, false, false⟩) ∧
    (body = "" →
      ∀ hr, handler osArgs flusherOk none body parsed setup env events =
          some hr →
        hr.ran = true ∧ hr.status = some 200) := by
  constructor
  · intro hbody hparse
    have hlen : 0 < body.length := length_pos_of_ne_empty hbody
    simp [handler, hargs, hfl, hlen, hparse]
  · intro hbody hr h
    subst hbody
    simp only [handler, hargs, hfl] at h
    simp at h
    cases hrun : Command.Run (handlerCommand osArgs) setup env events with
    | none => rw [hrun] at h; cases h
    | some r =>
      rw [hrun] at h
      cases hres : r.result with
      | ok u => simp [hres] at h; cases h; exact ⟨rfl, rfl⟩
      | error m => simp [hres] at h; cases h; exact ⟨rfl, rfl⟩

/-- Witness for C10: `os.Args = ["server", "echo"]`; a malformed non-empty
body gets 400 with no run; an empty body proceeds to a run that commits
200. -/
theorem c10_witness :
    (handler ["server", "echo"] true none "notjson" none ⟨none, none, none⟩
        ⟨0, none⟩ [Event.done none 0] =
      some ⟨some 400, [], none, false, false⟩) ∧
    HandlerResult.ran
        ⟨some 200, ["Running command: echo", "Command completed in 0s: echo"],
          none, true, false⟩ = true ∧
    HandlerResult.status
        ⟨some 200, ["Running command: echo", "Command completed in 0s: echo"],
          none, true, false⟩ = some 200 :=
  ⟨(c10_body_validation ["server", "echo"] true "notjson" none
      ⟨none, none, none⟩ ⟨0, none⟩ [Event.done none 0]
      (by decide) rfl).1 (by decide) rfl,
    (c10_body_validation ["server", "echo"] true "" none
      ⟨none, none, none⟩ ⟨0, none⟩ [Event.done none 0]
      (by decide) rfl).2 rfl
      ⟨some 200, ["Running command: echo", "Command completed in 0s: echo"],
        none, true, false⟩ rfl⟩

end LongCloudRun
